import Mathlib

/-!
Verification development for the client-side page translator in src/liq.js.

The JavaScript program is embedded shallowly:

* Strings are Lean strings; the JS string operations used by the source
  (trim, toLowerCase, the anchored quote-stripping replace, regex tests for
  numeric and URL-like text) are modelled as executable functions on the
  character data of a string.
* The two cache tiers (the in-memory Map and localStorage) are modelled as
  insertion-ordered association lists; Map.set and localStorage.setItem
  update in place or append, Map.get and localStorage.getItem return the
  first binding.
* The DOM body is a list of text nodes; a node is identified by its index.
  Each node carries its parent element tag (none when the node has no parent
  element), a flag saying whether some ancestor carries the data-no-translate
  attribute (the closest call on line 21 of src/liq.js), and its current
  text content.
* The remote MyMemory endpoint is an oracle, a function from the source text
  and the target language to an outcome: a thrown network or parse error, a
  non-ok HTTP response, or a JSON body with a responseStatus and an optional
  translatedText field.
* Asynchrony: the page runs on a single event loop.  Within one batch the
  Promise.all of translateToLanguage resolves its nodes concurrently; this is
  modelled as left-to-right sequential resolution, one admissible event-loop
  interleaving.  The 300 ms inter-batch pause and the batch boundaries are
  recorded in an explicit event trace instead of real time.
* The try / catch / finally of translatePage (lines 67-85) is modelled by a
  combinator that is parametric in the try-block body: the body returns the
  state reached when it finished or threw, the events it emitted, and a flag
  saying whether it threw; the catch arm only logs, the finally arm clears
  the busy flag and the loading indicator.
-/

namespace Liq

/-- JS-style whitespace trim on the character data of a string, modelling
String.prototype.trim as used on lines 23, 41 and 143 of src/liq.js. -/
def jsTrim (s : String) : String :=
  String.mk (((s.data.dropWhile Char.isWhitespace).reverse.dropWhile Char.isWhitespace).reverse)

/-- Drops one leading double-quote character when present. -/
def dropLeadQuote : List Char → List Char
  | '"' :: rest => rest
  | l => l

/-- Models the anchored-quote replace on line 143 of src/liq.js: it removes
one leading and one trailing double quote when present. -/
def stripQuotes (s : String) : String :=
  String.mk ((dropLeadQuote ((dropLeadQuote s.data).reverse)).reverse)

/-- Lowercases every character, modelling String.prototype.toLowerCase. -/
def lowerString (s : String) : String :=
  String.mk (s.data.map Char.toLower)

/-- Models the regex test for purely numeric text on line 25 of src/liq.js:
the string is nonempty and every character is a decimal digit. -/
def isNumericOnly (s : String) : Bool :=
  !s.data.isEmpty && s.data.all Char.isDigit

/-- Models the case-insensitive regex test on line 27 of src/liq.js: the text
starts with http, www. or an at sign. -/
def isUrlLike (s : String) : Bool :=
  let l := s.data.map Char.toLower
  List.isPrefixOf "http".data l || List.isPrefixOf "www.".data l ||
    List.isPrefixOf "@".data l

/-- First-binding lookup in an insertion-ordered association list, modelling
Map.get / Map.has and localStorage.getItem (a missing key is none). -/
def assocGet {κ ν : Type} [DecidableEq κ] : List (κ × ν) → κ → Option ν
  | [], _ => none
  | (k, v) :: rest, key => if k = key then some v else assocGet rest key

/-- In-place update or append in an insertion-ordered association list,
modelling Map.set and localStorage.setItem. -/
def assocSet {κ ν : Type} [DecidableEq κ] : List (κ × ν) → κ → ν → List (κ × ν)
  | [], key, value => [(key, value)]
  | (k, v) :: rest, key, value =>
    if k = key then (key, value) :: rest else (k, v) :: assocSet rest key value

/-- The record stored for an extracted text node (lines 43-47 of src/liq.js). -/
structure TextRecord where
  id : String
  original : String
  parentTag : String
deriving DecidableEq, Repr

/-- A DOM text node together with the context the extraction filter inspects:
the tag of its parent element (none when it has no parent element), whether
the parent has an ancestor-or-self bearing data-no-translate, and the current
text content. -/
structure TNode where
  parent : Option String
  noTranslate : Bool
  text : String
deriving DecidableEq, Repr

/-- Outcome of the remote translation call of lines 124-152 of src/liq.js. -/
inductive FetchOutcome where
  /-- The fetch or the JSON parse threw. -/
  | networkError : FetchOutcome
  /-- The HTTP response was not ok; line 133 then throws, and the throw is
  caught by the surrounding catch. -/
  | httpError (status : Nat) : FetchOutcome
  /-- A parsed JSON body with a responseStatus and an optional
  responseData.translatedText field. -/
  | apiResponse (responseStatus : Nat) (translatedText : Option String) : FetchOutcome
deriving DecidableEq, Repr

/-- The remote endpoint as an oracle from source text and target language to
an outcome.  The URL encoding of the text is invisible at this level: the
oracle is indexed by the raw text. -/
def FetchFn : Type := String → String → FetchOutcome

/-- The cache key of line 111 of src/liq.js: text, underscore, language. -/
def cacheKeyOf (text targetLang : String) : String :=
  text ++ "_" ++ targetLang

/-- The localStorage key of line 117 of src/liq.js. -/
def storageKeyOf (text targetLang : String) : String :=
  "translation_" ++ cacheKeyOf text targetLang

/-- Result of one getCachedTranslation call: the returned string, the two
cache tiers after the call, and whether the remote endpoint was contacted. -/
structure GctResult where
  result : String
  cache : List (String × String)
  storage : List (String × String)
  networkCalled : Bool
deriving DecidableEq, Repr

/-- The remote part of getCachedTranslation (lines 124-152 of src/liq.js),
reached when both tiers missed.  A thrown error or a non-ok response is
caught and the original text returned with no cache write; a body whose
responseStatus is not 200 or whose translatedText is missing or falsy (the
empty string) returns the original text with no cache write; otherwise the
translatedText is quote-stripped, trimmed, written through both tiers and
returned. -/
def gctRemote (fetch : FetchFn) (cache storage : List (String × String))
    (text targetLang cacheKey localStorageKey : String) : GctResult :=
  match fetch text targetLang with
  | FetchOutcome.networkError => ⟨text, cache, storage, true⟩
  | FetchOutcome.httpError _ => ⟨text, cache, storage, true⟩
  | FetchOutcome.apiResponse responseStatus translatedText =>
    if responseStatus ≠ 200 ∨ translatedText.getD "" = "" then
      ⟨text, cache, storage, true⟩
    else
      let translated := jsTrim (stripQuotes (translatedText.getD ""))
      ⟨translated, assocSet cache cacheKey translated,
        assocSet storage localStorageKey translated, true⟩

/-- Models getCachedTranslation (lines 110-153 of src/liq.js).  The memory
tier is consulted with Map.has, so any stored value, the empty string
included, is a hit; the persisted tier is consulted with a truthiness test,
so a stored empty string behaves like a miss and falls through to the remote
call. -/
def getCachedTranslation (fetch : FetchFn) (cache storage : List (String × String))
    (text targetLang : String) : GctResult :=
  let cacheKey := cacheKeyOf text targetLang
  match assocGet cache cacheKey with
  | some v => ⟨v, cache, storage, false⟩
  | none =>
    let localStorageKey := storageKeyOf text targetLang
    match assocGet storage localStorageKey with
    | some cached =>
      if cached ≠ "" then
        ⟨cached, assocSet cache cacheKey cached, storage, false⟩
      else
        gctRemote fetch cache storage text targetLang cacheKey localStorageKey
    | none => gctRemote fetch cache storage text targetLang cacheKey localStorageKey

/-- The skipSelectors field initialised on line 10 of src/liq.js.  The field
is never consulted anywhere else in the file: in particular the tree-walker
filter of extractText does not use it. -/
def skipSelectors : List String :=
  ["script", "style", "noscript", "iframe", "canvas", "svg"]

/-- The acceptNode filter of the tree walker (lines 17-30 of src/liq.js):
reject a node without a parent element, a node whose parent is an option
element, a node with a data-no-translate ancestor, and text that is empty or
shorter than two characters, purely numeric, or URL- or handle-like. -/
def acceptNode (n : TNode) : Bool :=
  match n.parent with
  | none => false
  | some tag =>
    if lowerString tag = "option" then false
    else if n.noTranslate then false
    else
      let text := jsTrim n.text
      if text = "" ∨ text.length < 2 then false
      else if isNumericOnly text then false
      else if isUrlLike text then false
      else true

/-- The indices of the text nodes the walker yields, in document order
(lines 34-38 of src/liq.js). -/
def walkerNodes (dom : List TNode) : List Nat :=
  (List.range dom.length).filter fun i =>
    match dom.get? i with
    | some n => acceptNode n
    | none => false

/-- Pairs every list element with its position, starting at a given index;
models the index argument of Array.prototype.forEach. -/
def enumFrom {α : Type} : Nat → List α → List (Nat × α)
  | _, [] => []
  | k, x :: xs => (k, x) :: enumFrom (k + 1) xs

/-- One step of the forEach of lines 40-49 of src/liq.js: record the node at
index i under a sequential identifier when its trimmed text is nonempty and
the node is not yet recorded. -/
def recordNode (dom : List TNode) (acc : List (Nat × TextRecord))
    (index i : Nat) : List (Nat × TextRecord) :=
  match dom.get? i with
  | none => acc
  | some n =>
    let text := jsTrim n.text
    if text ≠ "" ∧ assocGet acc i = none then
      acc ++ [(i, { id := "text_" ++ toString index, original := text,
                    parentTag := lowerString (n.parent.getD "") })]
    else acc

/-- Models extractText (lines 12-52 of src/liq.js): walk the accepted text
nodes in document order and record each new one. -/
def extractText (dom : List TNode) (orig : List (Nat × TextRecord)) :
    List (Nat × TextRecord) :=
  (enumFrom 0 (walkerNodes dom)).foldl (fun acc p => recordNode dom acc p.1 p.2) orig

/-- The whole mutable state the program touches: the node-to-record map and
caches of the Translator instance, the current and document language, the
busy flag, the loading indicator, localStorage and the DOM text nodes. -/
structure World where
  originalTexts : List (Nat × TextRecord)
  cache : List (String × String)
  storage : List (String × String)
  currentLang : String
  isTranslating : Bool
  loading : Bool
  docLang : String
  dom : List TNode
deriving DecidableEq, Repr

/-- Writes the text content of the node at an index, leaving the rest of the
node untouched; out-of-range writes are vacuous (the claims only ever write
at recorded indices, which exist). -/
def domSetText (dom : List TNode) (i : Nat) (s : String) : List TNode :=
  match dom.get? i with
  | some n => dom.set i { n with text := s }
  | none => dom

/-- Reads the text content of the node at an index. -/
def domText (dom : List TNode) (i : Nat) : Option String :=
  (dom.get? i).map TNode.text

/-- The trace events of one translation run: the node indices of one batch
resolved by a Promise.all, and one inter-batch setTimeout pause with its
duration in milliseconds. -/
inductive Event where
  | batch (ids : List Nat) : Event
  | delay (ms : Nat) : Event
deriving DecidableEq, Repr

/-- One node of a batch (lines 95-102 of src/liq.js): resolve the cached
translation of the recorded original text and write it to the node only when
it is truthy and differs from the original. -/
def processNode (fetch : FetchFn) (targetLang : String) (w : World)
    (e : Nat × TextRecord) : World :=
  let r := getCachedTranslation fetch w.cache w.storage e.2.original targetLang
  let dom :=
    if r.result ≠ "" ∧ r.result ≠ e.2.original then domSetText w.dom e.1 r.result
    else w.dom
  { w with cache := r.cache, storage := r.storage, dom := dom }

/-- Resolves one batch.  The Promise.all of line 94 resolves the batch
concurrently on the single event loop; this folds the nodes left to right,
one admissible interleaving. -/
def runBatch (fetch : FetchFn) (targetLang : String) (w : World)
    (batch : List (Nat × TextRecord)) : World :=
  batch.foldl (processNode fetch targetLang) w

/-- The batch loop of lines 91-108 of src/liq.js: slice off eight nodes,
resolve them, and pause 300 ms when nodes remain.  The extra fuel argument
only bounds the recursion depth so the definition is structural; it is
called with the length of the node list, which the loop never exceeds. -/
def translateBatches (fetch : FetchFn) (targetLang : String) :
    Nat → List (Nat × TextRecord) → World → World × List Event
  | _, [], w => (w, [])
  | 0, _ :: _, w => (w, [])
  | fuel + 1, e :: rest, w =>
    let batch := (e :: rest).take 8
    let w1 := runBatch fetch targetLang w batch
    let remaining := (e :: rest).drop 8
    if remaining.isEmpty then (w1, [Event.batch (batch.map Prod.fst)])
    else
      let next := translateBatches fetch targetLang fuel remaining w1
      (next.1, Event.batch (batch.map Prod.fst) :: Event.delay 300 :: next.2)

/-- Models translateToLanguage (lines 87-109 of src/liq.js). -/
def translateToLanguage (fetch : FetchFn) (w : World) (targetLang : String) :
    World × List Event :=
  translateBatches fetch targetLang w.originalTexts.length w.originalTexts w

/-- Models restoreOriginal (lines 154-158 of src/liq.js): write every
recorded original text back onto its node. -/
def restoreOriginal (w : World) : World :=
  { w with dom := w.originalTexts.foldl (fun d e => domSetText d e.1 e.2.original) w.dom }

/-- A try-block body for translatePage: from the state with the busy flag
set it returns the state it reached, the events it emitted, and whether it
threw on the way. -/
def TryBlock : Type := World → World × List Event × Bool

/-- The control skeleton of translatePage (lines 61-86 of src/liq.js),
parametric in the try-block body: the no-op guard of line 62, then set the
busy flag and the loading indicator, run the body, and - whether the body
finished or threw, the catch arm only logging - clear the busy flag and the
loading indicator in the finally arm and return normally. -/
def translatePageWith (tryBlock : TryBlock) (w : World) (targetLang : String) :
    World × List Event :=
  if w.isTranslating = true ∨ targetLang = w.currentLang then (w, [])
  else
    let w1 := { w with isTranslating := true, loading := true }
    let out := tryBlock w1
    ({ out.1 with isTranslating := false, loading := false }, out.2.1)

/-- The concrete try block of lines 67-79 of src/liq.js: restore when the
target is the base language, otherwise translate; then record the current
language, the document language attribute and the persisted preference.
In the embedding this body never throws. -/
def tryBlockImpl (fetch : FetchFn) (targetLang : String) : TryBlock := fun w1 =>
  let step :=
    if targetLang = "en" then (restoreOriginal w1, ([] : List Event))
    else translateToLanguage fetch w1 targetLang
  ({ step.1 with
      currentLang := targetLang
      docLang := targetLang
      storage := assocSet step.1.storage "site_language" targetLang }, step.2, false)

/-- Models translatePage (lines 61-86 of src/liq.js). -/
def translatePage (fetch : FetchFn) (w : World) (targetLang : String) :
    World × List Event :=
  translatePageWith (tryBlockImpl fetch targetLang) w targetLang

/-- The state right after page load: a fresh Translator (lines 5-11 and 161
of src/liq.js) whose extractText has run once on the initial document
(lines 162-164), with empty caches and storage. -/
def extractedWorld (dom : List TNode) : World :=
  { originalTexts := extractText dom [], cache := [], storage := [],
    currentLang := "en", isTranslating := false, loading := false,
    docLang := "en", dom := dom }

/-- The batch schedule as section 4.3 of the spec describes it: the recorded
node indices partitioned into consecutive chunks of eight in order, with one
300 ms pause between consecutive chunks and none after the last.  This
definition follows the words of the spec; the theorem for the batching claim
relates it to the trace the embedded loop emits. -/
def chunksOfEight : Nat → List Nat → List (List Nat)
  | _, [] => []
  | 0, _ :: _ => []
  | fuel + 1, x :: xs => (x :: xs).take 8 :: chunksOfEight fuel ((x :: xs).drop 8)

/-- The full spec-side schedule: batch events for the chunks of eight,
interspersed with 300 ms delays. -/
def specBatchSchedule (ids : List Nat) : List Event :=
  List.intersperse (Event.delay 300) ((chunksOfEight ids.length ids).map Event.batch)

/-! ### Association-list lemmas -/

/-- Looking up the key just written returns the written value. -/
theorem assocGet_assocSet_self {κ ν : Type} [DecidableEq κ]
    (m : List (κ × ν)) (k : κ) (v : ν) :
    assocGet (assocSet m k v) k = some v := by
  induction m with
  | nil => simp [assocSet, assocGet]
  | cons p rest ih =>
    obtain ⟨k1, v1⟩ := p
    by_cases h : k1 = k <;> simp [assocSet, assocGet, h, ih]

/-- Writing one key leaves lookups of any other key unchanged. -/
theorem assocGet_assocSet_ne {κ ν : Type} [DecidableEq κ]
    (m : List (κ × ν)) (k k' : κ) (v : ν) (hne : k' ≠ k) :
    assocGet (assocSet m k v) k' = assocGet m k' := by
  induction m with
  | nil => simp [assocSet, assocGet, Ne.symm hne]
  | cons p rest ih =>
    obtain ⟨k1, v1⟩ := p
    by_cases h : k1 = k
    · subst h
      simp [assocSet, assocGet, Ne.symm hne]
    · by_cases h2 : k1 = k' <;> simp [assocSet, assocGet, h, h2, hne, ih]

/-- A lookup misses exactly when the key is absent from the key list. -/
theorem assocGet_eq_none_iff {κ ν : Type} [DecidableEq κ]
    (m : List (κ × ν)) (k : κ) :
    assocGet m k = none ↔ k ∉ m.map Prod.fst := by
  induction m with
  | nil => simp [assocGet]
  | cons p rest ih =>
    obtain ⟨k1, v1⟩ := p
    by_cases h : k1 = k
    · simp [assocGet, h]
    · simp [assocGet, h, Ne.symm h, ih]

/-- Appending two strings to the same front string is injective on the tail. -/
theorem string_append_left_cancel (p a b : String) (h : p ++ a = p ++ b) : a = b := by
  have hd : (p ++ a).data = (p ++ b).data := congrArg String.data h
  rw [String.data_append, String.data_append] at hd
  exact congrArg String.mk (List.append_cancel_left hd)

/-! ### DOM write lemmas -/

/-- Writing a node text never changes the number of nodes. -/
theorem length_domSetText (d : List TNode) (i : Nat) (s : String) :
    (domSetText d i s).length = d.length := by
  unfold domSetText
  cases hd : d.get? i <;> simp [List.length_set]

/-- Reading back a just-written in-range node text gives the written string. -/
theorem domText_domSetText_self (d : List TNode) (i : Nat) (s : String)
    (h : i < d.length) :
    domText (domSetText d i s) i = some s := by
  unfold domSetText domText
  cases hd : d.get? i with
  | none =>
    rw [List.get?_eq_none] at hd
    omega
  | some n =>
    rw [List.get?_set_eq_of_lt _ h]
    rfl

/-- Writing one node text leaves every other node text unchanged. -/
theorem domText_domSetText_ne (d : List TNode) (i j : Nat) (s : String)
    (h : i ≠ j) :
    domText (domSetText d j s) i = domText d i := by
  unfold domSetText domText
  cases hd : d.get? j with
  | none => rfl
  | some n =>
    dsimp only
    rw [List.get?_set_ne _ _ (Ne.symm h)]

/-! ### Restore lemmas -/

/-- The restore fold leaves a node untouched when its index is not recorded. -/
theorem restoreFold_untouched (l : List (Nat × TextRecord)) (d : List TNode)
    (i : Nat) (h : i ∉ l.map Prod.fst) :
    domText (l.foldl (fun dd e => domSetText dd e.1 e.2.original) d) i = domText d i := by
  induction l generalizing d with
  | nil => rfl
  | cons p rest ih =>
    simp only [List.map_cons, List.mem_cons] at h
    push_neg at h
    rw [List.foldl_cons, ih _ h.2, domText_domSetText_ne _ _ _ _ h.1]

/-- With pairwise-distinct recorded indices, the restore fold writes every
recorded node back to its recorded original text. -/
theorem restoreFold_mem (l : List (Nat × TextRecord)) (d : List TNode)
    (i : Nat) (rec : TextRecord) (hn : (l.map Prod.fst).Nodup)
    (hm : (i, rec) ∈ l) (hi : i < d.length) :
    domText (l.foldl (fun dd e => domSetText dd e.1 e.2.original) d) i
      = some rec.original := by
  induction l generalizing d with
  | nil => cases hm
  | cons p rest ih =>
    rw [List.foldl_cons]
    simp only [List.map_cons, List.nodup_cons] at hn
    rcases List.mem_cons.mp hm with heq | htail
    · have hi1 : p.1 = i := by rw [← heq]
      have hnotin : i ∉ rest.map Prod.fst := hi1 ▸ hn.1
      rw [restoreFold_untouched rest _ i hnotin, ← heq]
      exact domText_domSetText_self d i rec.original hi
    · exact ih _ hn.2 htail (by rw [length_domSetText]; exact hi)

/-! ### Extraction key lemmas -/

/-- Appending a fresh element keeps a list without duplicates. -/
theorem nodup_append_single {α : Type} (l : List α) (a : α)
    (h1 : l.Nodup) (h2 : a ∉ l) : (l ++ [a]).Nodup := by
  simp [List.nodup_append, h1, h2]

/-- One forEach step of extraction keeps the recorded node indices pairwise
distinct and in range. -/
theorem recordNode_keysOK (dom : List TNode) (acc : List (Nat × TextRecord))
    (index i : Nat)
    (hn : (acc.map Prod.fst).Nodup) (hb : ∀ p ∈ acc, p.1 < dom.length) :
    ((recordNode dom acc index i).map Prod.fst).Nodup ∧
      ∀ p ∈ recordNode dom acc index i, p.1 < dom.length := by
  unfold recordNode
  cases hd : dom.get? i with
  | none => exact ⟨hn, hb⟩
  | some n =>
    dsimp only
    by_cases hc : jsTrim n.text ≠ "" ∧ assocGet acc i = none
    · rw [if_pos hc]
      have hlt : i < dom.length := by
        by_contra hh
        rw [List.get?_eq_none.mpr (by omega)] at hd
        cases hd
      have hnotin : i ∉ acc.map Prod.fst := (assocGet_eq_none_iff acc i).mp hc.2
      constructor
      · rw [List.map_append]
        exact nodup_append_single _ _ hn hnotin
      · intro p hp
        rcases List.mem_append.mp hp with hin | hin
        · exact hb p hin
        · simp only [List.mem_singleton] at hin
          subst hin
          exact hlt
    · rw [if_neg hc]
      exact ⟨hn, hb⟩

/-- The whole extraction fold keeps the recorded node indices pairwise
distinct and in range. -/
theorem extractFold_keysOK (dom : List TNode) (ps : List (Nat × Nat)) :
    ∀ acc : List (Nat × TextRecord), (acc.map Prod.fst).Nodup →
      (∀ p ∈ acc, p.1 < dom.length) →
      ((ps.foldl (fun acc p => recordNode dom acc p.1 p.2) acc).map Prod.fst).Nodup ∧
        ∀ p ∈ ps.foldl (fun acc p => recordNode dom acc p.1 p.2) acc,
          p.1 < dom.length := by
  induction ps with
  | nil => intro acc hn hb; exact ⟨hn, hb⟩
  | cons q qs ih =>
    intro acc hn hb
    rw [List.foldl_cons]
    obtain ⟨hn2, hb2⟩ := recordNode_keysOK dom acc q.1 q.2 hn hb
    exact ih _ hn2 hb2

/-- extractText on a fresh Translator records pairwise-distinct, in-range
node indices. -/
theorem extractText_keysOK (dom : List TNode) :
    ((extractText dom []).map Prod.fst).Nodup ∧
      ∀ p ∈ extractText dom [], p.1 < dom.length := by
  unfold extractText
  exact extractFold_keysOK dom _ [] (by simp) (by simp)

/-! ### Shape preservation through a translation run -/

/-- The second state agrees with the first on every field a batch run leaves
alone, the node count included. -/
def SameShape (w w' : World) : Prop :=
  w'.originalTexts = w.originalTexts ∧ w'.currentLang = w.currentLang ∧
    w'.isTranslating = w.isTranslating ∧ w'.loading = w.loading ∧
    w'.docLang = w.docLang ∧ w'.dom.length = w.dom.length

theorem sameShape_refl (w : World) : SameShape w w :=
  ⟨rfl, rfl, rfl, rfl, rfl, rfl⟩

theorem sameShape_trans {a b c : World} (h1 : SameShape a b)
    (h2 : SameShape b c) : SameShape a c :=
  ⟨h2.1.trans h1.1, h2.2.1.trans h1.2.1, h2.2.2.1.trans h1.2.2.1,
    h2.2.2.2.1.trans h1.2.2.2.1, h2.2.2.2.2.1.trans h1.2.2.2.2.1,
    h2.2.2.2.2.2.trans h1.2.2.2.2.2⟩

/-- Resolving one node only rewrites the caches and one node text. -/
theorem sameShape_processNode (fetch : FetchFn) (lang : String) (w : World)
    (e : Nat × TextRecord) : SameShape w (processNode fetch lang w e) := by
  unfold processNode
  refine ⟨rfl, rfl, rfl, rfl, rfl, ?_⟩
  dsimp only
  by_cases hc : (getCachedTranslation fetch w.cache w.storage e.2.original lang).result ≠ "" ∧
      (getCachedTranslation fetch w.cache w.storage e.2.original lang).result ≠ e.2.original
  · rw [if_pos hc, length_domSetText]
  · rw [if_neg hc]

/-- Resolving one batch only rewrites the caches and node texts. -/
theorem sameShape_runBatch (fetch : FetchFn) (lang : String)
    (batch : List (Nat × TextRecord)) :
    ∀ w : World, SameShape w (runBatch fetch lang w batch) := by
  induction batch with
  | nil => exact sameShape_refl
  | cons e rest ih =>
    intro w
    exact sameShape_trans (sameShape_processNode fetch lang w e)
      (ih (processNode fetch lang w e))

/-- The whole batch loop only rewrites the caches and node texts. -/
theorem sameShape_translateBatches (fetch : FetchFn) (lang : String) :
    ∀ (fuel : Nat) (l : List (Nat × TextRecord)) (w : World),
      SameShape w (translateBatches fetch lang fuel l w).1 := by
  intro fuel
  induction fuel with
  | zero =>
    intro l w
    cases l with
    | nil => exact sameShape_refl w
    | cons e rest => exact sameShape_refl w
  | succ f ih =>
    intro l w
    cases l with
    | nil => exact sameShape_refl w
    | cons e rest =>
      simp only [translateBatches]
      by_cases hre : ((e :: rest).drop 8).isEmpty
      · rw [if_pos hre]
        exact sameShape_runBatch fetch lang _ w
      · rw [if_neg hre]
        exact sameShape_trans (sameShape_runBatch fetch lang _ w) (ih _ _)

/-! ### Trace lemmas -/

/-- Interspersing delays over a nonempty tail of batches steps one cons. -/
theorem intersperse_batch_cons (c : List Nat) (cs : List (List Nat))
    (hcs : cs ≠ []) :
    List.intersperse (Event.delay 300) ((c :: cs).map Event.batch) =
      Event.batch c :: Event.delay 300 ::
        List.intersperse (Event.delay 300) (cs.map Event.batch) := by
  obtain ⟨c2, cs2, rfl⟩ := List.exists_cons_of_ne_nil hcs
  rfl

/-- Chunking a nonempty list with positive fuel yields at least one chunk. -/
theorem chunksOfEight_ne_nil (fuel : Nat) (l : List Nat) (hl : l ≠ [])
    (hf : 1 ≤ fuel) : chunksOfEight fuel l ≠ [] := by
  cases fuel with
  | zero => omega
  | succ f =>
    cases l with
    | nil => exact absurd rfl hl
    | cons x xs => simp [chunksOfEight]

/-- The batch loop emits exactly the spec-side schedule: the recorded node
indices in chunks of eight in order, one 300 ms delay between consecutive
chunks and none after the last. -/
theorem translateBatches_trace (fetch : FetchFn) (lang : String) :
    ∀ (fuel : Nat) (l : List (Nat × TextRecord)) (w : World), l.length ≤ fuel →
      (translateBatches fetch lang fuel l w).2 =
        List.intersperse (Event.delay 300)
          ((chunksOfEight fuel (l.map Prod.fst)).map Event.batch) := by
  intro fuel
  induction fuel with
  | zero =>
    intro l w h
    have hl : l = [] := List.eq_nil_of_length_eq_zero (Nat.le_zero.mp h)
    subst hl
    simp [translateBatches, chunksOfEight]
  | succ f ih =>
    intro l w h
    cases l with
    | nil => simp [translateBatches, chunksOfEight]
    | cons e rest =>
      have hmt : List.map Prod.fst ((e :: rest).take 8)
          = (List.map Prod.fst (e :: rest)).take 8 := List.map_take _ _ _
      have hmd : List.map Prod.fst ((e :: rest).drop 8)
          = (List.map Prod.fst (e :: rest)).drop 8 := List.map_drop _ _ _
      have hchunk : chunksOfEight (f + 1) (List.map Prod.fst (e :: rest))
          = (List.map Prod.fst (e :: rest)).take 8
            :: chunksOfEight f ((List.map Prod.fst (e :: rest)).drop 8) := by
        simp only [List.map_cons, chunksOfEight]
      rw [hchunk, ← hmt, ← hmd]
      simp only [translateBatches]
      by_cases hre : ((e :: rest).drop 8).isEmpty
      · rw [if_pos hre]
        rw [List.isEmpty_iff] at hre
        rw [hre]
        simp [chunksOfEight, List.intersperse]
      · rw [if_neg hre]
        rw [List.isEmpty_iff] at hre
        have hlen : ((e :: rest).drop 8).length ≤ f := by
          rw [List.length_drop]
          simp only [List.length_cons] at h ⊢
          omega

        have hne : List.map Prod.fst ((e :: rest).drop 8) ≠ [] := by
          intro hh
          exact hre (List.map_eq_nil.mp hh)
        have hf1 : 1 ≤ f := by
          rcases List.exists_cons_of_ne_nil hre with ⟨r, rs, hrr⟩
          rw [hrr] at hlen
          simp only [List.length_cons] at hlen
          omega
        rw [intersperse_batch_cons _ _ (chunksOfEight_ne_nil f _ hne hf1)]
        dsimp only
        rw [ih _ _ hlen]

/-! ### translatePage unfolding lemmas -/

/-- A non-no-op run to a non-base language: set the flags, run the batch
loop, record the language in three places, clear the flags. -/
theorem translatePage_not_base (fetch : FetchFn) (w : World) (lang : String)
    (h1 : w.isTranslating = false) (h2 : lang ≠ w.currentLang)
    (h3 : lang ≠ "en") :
    (translatePage fetch w lang).1 =
      { (translateToLanguage fetch { w with isTranslating := true, loading := true } lang).1 with
          currentLang := lang
          docLang := lang
          storage := assocSet
            (translateToLanguage fetch { w with isTranslating := true, loading := true } lang).1.storage
            "site_language" lang
          isTranslating := false
          loading := false } := by
  have hg : ¬(w.isTranslating = true ∨ lang = w.currentLang) := by
    rw [h1]
    simp [h2]
  unfold translatePage translatePageWith tryBlockImpl
  rw [if_neg hg]
  simp [h3]

/-- A non-no-op run to the base language: set the flags, restore, record the
language in three places, clear the flags. -/
theorem translatePage_base (fetch : FetchFn) (w : World)
    (h1 : w.isTranslating = false) (h2 : w.currentLang ≠ "en") :
    (translatePage fetch w "en").1 =
      { restoreOriginal { w with isTranslating := true, loading := true } with
          currentLang := "en"
          docLang := "en"
          storage := assocSet
            (restoreOriginal { w with isTranslating := true, loading := true }).storage
            "site_language" "en"
          isTranslating := false
          loading := false } := by
  have hg : ¬(w.isTranslating = true ∨ ("en" : String) = w.currentLang) := by
    rw [h1]
    simp [Ne.symm h2]
  unfold translatePage translatePageWith tryBlockImpl
  rw [if_neg hg]
  simp

/-! ### getCachedTranslation case lemmas -/

/-- The failure outcomes the spec lists for the remote call: a thrown
network or parse error, a non-ok HTTP status, a responseStatus other than
200, or a missing translatedText field. -/
def fetchFailed : FetchOutcome → Bool
  | FetchOutcome.networkError => true
  | FetchOutcome.httpError _ => true
  | FetchOutcome.apiResponse responseStatus translatedText =>
    (responseStatus != 200) || translatedText.isNone

/-- A memory-tier hit returns the stored value with no state change and no
network call. -/
theorem gct_memory_hit (fetch : FetchFn) (cache storage : List (String × String))
    (text lang v : String)
    (h : assocGet cache (cacheKeyOf text lang) = some v) :
    getCachedTranslation fetch cache storage text lang = ⟨v, cache, storage, false⟩ := by
  unfold getCachedTranslation
  simp only [h]

/-- A memory-tier miss and a nonempty persisted-tier hit copies the value
into the memory tier and returns it with no network call. -/
theorem gct_persisted_hit (fetch : FetchFn) (cache storage : List (String × String))
    (text lang v : String)
    (hmem : assocGet cache (cacheKeyOf text lang) = none)
    (hst : assocGet storage (storageKeyOf text lang) = some v) (hv : v ≠ "") :
    getCachedTranslation fetch cache storage text lang =
      ⟨v, assocSet cache (cacheKeyOf text lang) v, storage, false⟩ := by
  unfold getCachedTranslation
  simp only [hmem, hst]
  rw [if_pos hv]

/-- A double miss with a failing remote call returns the input text and
leaves both tiers unchanged. -/
theorem gct_remote_failure (fetch : FetchFn) (cache storage : List (String × String))
    (text lang : String)
    (hmem : assocGet cache (cacheKeyOf text lang) = none)
    (hst : assocGet storage (storageKeyOf text lang) = none)
    (hfail : fetchFailed (fetch text lang) = true) :
    getCachedTranslation fetch cache storage text lang = ⟨text, cache, storage, true⟩ := by
  unfold getCachedTranslation gctRemote
  simp only [hmem, hst]
  cases hf : fetch text lang with
  | networkError => rfl
  | httpError status => rfl
  | apiResponse responseStatus translatedText =>
    rw [hf] at hfail
    simp only [fetchFailed, Bool.or_eq_true, bne_iff_ne, Option.isNone_iff_eq_none] at hfail
    dsimp only
    rw [if_pos]
    rcases hfail with hs | hs
    · exact Or.inl hs
    · exact Or.inr (by rw [hs]; rfl)

/-- A double miss with a successful remote call (ok response, status 200,
nonempty translatedText) quote-strips and trims the payload, writes it
through both tiers and returns it. -/
theorem gct_remote_success (fetch : FetchFn) (cache storage : List (String × String))
    (text lang s : String)
    (hmem : assocGet cache (cacheKeyOf text lang) = none)
    (hst : assocGet storage (storageKeyOf text lang) = none)
    (hf : fetch text lang = FetchOutcome.apiResponse 200 (some s))
    (hs : s ≠ "") :
    getCachedTranslation fetch cache storage text lang =
      ⟨jsTrim (stripQuotes s),
        assocSet cache (cacheKeyOf text lang) (jsTrim (stripQuotes s)),
        assocSet storage (storageKeyOf text lang) (jsTrim (stripQuotes s)), true⟩ := by
  unfold getCachedTranslation gctRemote
  simp only [hmem, hst, hf]
  rw [if_neg]
  · rfl
  · simp [hs]

/-- A write under one cache key leaves lookups under a different storage key
unchanged; the storage keys differ whenever the cache keys do. -/
theorem storageKey_ne (t1 l1 t2 l2 : String)
    (h : cacheKeyOf t1 l1 ≠ cacheKeyOf t2 l2) :
    storageKeyOf t1 l1 ≠ storageKeyOf t2 l2 :=
  fun hh => h (string_append_left_cancel "translation_" _ _ hh)

/-- The remote path only ever writes the cache and storage keys of the caller
alone: lookups under any other keys are unchanged. -/
theorem gctRemote_no_interference (fetch : FetchFn)
    (cache storage : List (String × String)) (t1 l1 k2 sk2 : String)
    (hk2 : k2 ≠ cacheKeyOf t1 l1) (hsk2 : sk2 ≠ storageKeyOf t1 l1) :
    assocGet (gctRemote fetch cache storage t1 l1 (cacheKeyOf t1 l1)
        (storageKeyOf t1 l1)).cache k2 = assocGet cache k2 ∧
    assocGet (gctRemote fetch cache storage t1 l1 (cacheKeyOf t1 l1)
        (storageKeyOf t1 l1)).storage sk2 = assocGet storage sk2 := by
  unfold gctRemote
  cases h3 : fetch t1 l1 with
  | networkError => exact ⟨rfl, rfl⟩
  | httpError status => exact ⟨rfl, rfl⟩
  | apiResponse responseStatus translatedText =>
    dsimp only
    by_cases h4 : responseStatus ≠ 200 ∨ translatedText.getD "" = ""
    · rw [if_pos h4]
      exact ⟨rfl, rfl⟩
    · rw [if_neg h4]
      exact ⟨assocGet_assocSet_ne _ _ _ _ hk2, assocGet_assocSet_ne _ _ _ _ hsk2⟩

/-! ### The claims -/

/-- C2: on a double cache miss, a failing remote call (thrown error, non-ok
HTTP status, responseStatus other than 200, or missing translatedText)
returns the original input text unchanged and writes neither tier, so a
later request for the same pair contacts the remote endpoint again. -/
theorem failed_fetch_returns_input_and_caches_unchanged (fetch : FetchFn)
    (cache storage : List (String × String)) (text lang : String)
    (hmem : assocGet cache (cacheKeyOf text lang) = none)
    (hst : assocGet storage (storageKeyOf text lang) = none)
    (hfail : fetchFailed (fetch text lang) = true) :
    getCachedTranslation fetch cache storage text lang = ⟨text, cache, storage, true⟩ ∧
    (getCachedTranslation fetch
        (getCachedTranslation fetch cache storage text lang).cache
        (getCachedTranslation fetch cache storage text lang).storage
        text lang).networkCalled = true := by
  have h := gct_remote_failure fetch cache storage text lang hmem hst hfail
  refine ⟨h, ?_⟩
  rw [h]
  dsimp only
  rw [gct_remote_failure fetch cache storage text lang hmem hst hfail]

/-- Witness for C2 at a concrete input: both tiers empty, the fetch throws. -/
theorem failed_fetch_returns_input_and_caches_unchanged_witness :
    assocGet ([] : List (String × String)) (cacheKeyOf "Hello" "fr") = none ∧
    assocGet ([] : List (String × String)) (storageKeyOf "Hello" "fr") = none ∧
    fetchFailed ((fun _ _ => FetchOutcome.networkError) "Hello" "fr") = true ∧
    getCachedTranslation (fun _ _ => FetchOutcome.networkError) [] [] "Hello" "fr"
      = ⟨"Hello", [], [], true⟩ := by
  refine ⟨rfl, rfl, rfl, ?_⟩
  exact (failed_fetch_returns_input_and_caches_unchanged
    (fun _ _ => FetchOutcome.networkError) [] [] "Hello" "fr" rfl rfl rfl).1

/-- C3 counterexample: a successful call can cache the empty string (a
translatedText of two quote characters normalizes to it and is written
through both tiers); with a fresh memory tier, the persisted tier then holds
a value for the pair, yet the truthiness test of line 119 of src/liq.js
skips it and the remote endpoint is contacted, while the claim as stated
promises the persisted value is returned with no network call. -/
theorem persisted_empty_value_triggers_network_cx :
    (getCachedTranslation (fun _ _ => FetchOutcome.apiResponse 200 (some "\"\""))
        [] [] "Hello" "fr").storage = [("translation_Hello_fr", "")] ∧
    assocGet ([] : List (String × String)) (cacheKeyOf "Hello" "fr") = none ∧
    assocGet [("translation_Hello_fr", "")] (storageKeyOf "Hello" "fr") = some "" ∧
    (getCachedTranslation (fun _ _ => FetchOutcome.apiResponse 200 (some "\"\""))
        [] [("translation_Hello_fr", "")] "Hello" "fr").networkCalled = true := by
  decide

/-- C3 (amended): a memory-tier hit is returned immediately with no state
change and no network call; on a memory miss, a NONEMPTY persisted-tier
value is copied into the memory tier and returned with no network call (a
persisted empty string is skipped by the truthiness test); and after a
successful remote translation the very next request for the same pair is
answered from the memory tier, unchanged and without a network call. -/
theorem cache_tier_lookup_order (fetch : FetchFn)
    (cache storage : List (String × String)) (text lang : String) :
    (∀ v, assocGet cache (cacheKeyOf text lang) = some v →
      getCachedTranslation fetch cache storage text lang = ⟨v, cache, storage, false⟩) ∧
    (∀ v, assocGet cache (cacheKeyOf text lang) = none →
      assocGet storage (storageKeyOf text lang) = some v → v ≠ "" →
      getCachedTranslation fetch cache storage text lang =
        ⟨v, assocSet cache (cacheKeyOf text lang) v, storage, false⟩) ∧
    (∀ s, assocGet cache (cacheKeyOf text lang) = none →
      assocGet storage (storageKeyOf text lang) = none →
      fetch text lang = FetchOutcome.apiResponse 200 (some s) → s ≠ "" →
      getCachedTranslation fetch
          (getCachedTranslation fetch cache storage text lang).cache
          (getCachedTranslation fetch cache storage text lang).storage text lang
        = ⟨(getCachedTranslation fetch cache storage text lang).result,
            (getCachedTranslation fetch cache storage text lang).cache,
            (getCachedTranslation fetch cache storage text lang).storage, false⟩) := by
  refine ⟨fun v h => gct_memory_hit fetch cache storage text lang v h,
    fun v h1 h2 h3 => gct_persisted_hit fetch cache storage text lang v h1 h2 h3,
    fun s h1 h2 h3 h4 => ?_⟩
  have hs := gct_remote_success fetch cache storage text lang s h1 h2 h3 h4
  rw [hs]
  exact gct_memory_hit _ _ _ _ _ _ (assocGet_assocSet_self _ _ _)

/-- Witness for C3 at a concrete input: a nonempty persisted hit is copied
into the memory tier and returned without a network call. -/
theorem cache_tier_lookup_order_witness :
    getCachedTranslation (fun _ _ => FetchOutcome.networkError) []
        [("translation_Hello_fr", "Bonjour")] "Hello" "fr"
      = ⟨"Bonjour", [("Hello_fr", "Bonjour")],
          [("translation_Hello_fr", "Bonjour")], false⟩ := by
  have h := (cache_tier_lookup_order (fun _ _ => FetchOutcome.networkError) []
    [("translation_Hello_fr", "Bonjour")] "Hello" "fr").2.1 "Bonjour" rfl (by decide)
    (by decide)
  exact h.trans (by decide)

/-- C4 counterexample: with both tiers empty and an ok response of status
200 whose translatedText is present but the empty string, the call returns
the original text and writes nothing, while the claim as stated promises the
normalized value is written through both tiers and returned. -/
theorem empty_translated_text_not_cached_cx :
    getCachedTranslation (fun _ _ => FetchOutcome.apiResponse 200 (some ""))
        [] [] "Hello" "fr" = ⟨"Hello", [], [], true⟩ ∧
    ("Hello" : String) ≠ jsTrim (stripQuotes "") := by
  decide

/-- C4 (amended): on a double miss, a successful remote call (HTTP ok,
responseStatus 200, translatedText present and NONEMPTY) strips wrapping
quote characters, trims, writes the normalized value through both tiers and
returns it. -/
theorem successful_fetch_normalizes_and_writes_through (fetch : FetchFn)
    (cache storage : List (String × String)) (text lang s : String)
    (hmem : assocGet cache (cacheKeyOf text lang) = none)
    (hst : assocGet storage (storageKeyOf text lang) = none)
    (hf : fetch text lang = FetchOutcome.apiResponse 200 (some s))
    (hs : s ≠ "") :
    getCachedTranslation fetch cache storage text lang =
      ⟨jsTrim (stripQuotes s),
        assocSet cache (cacheKeyOf text lang) (jsTrim (stripQuotes s)),
        assocSet storage (storageKeyOf text lang) (jsTrim (stripQuotes s)), true⟩ ∧
    assocGet (getCachedTranslation fetch cache storage text lang).cache
        (cacheKeyOf text lang) = some (jsTrim (stripQuotes s)) ∧
    assocGet (getCachedTranslation fetch cache storage text lang).storage
        (storageKeyOf text lang) = some (jsTrim (stripQuotes s)) := by
  have h := gct_remote_success fetch cache storage text lang s hmem hst hf hs
  refine ⟨h, ?_, ?_⟩
  · rw [h]
    exact assocGet_assocSet_self _ _ _
  · rw [h]
    exact assocGet_assocSet_self _ _ _

/-- Witness for C4 at the concrete input of the spec scenario: a quoted
Bonjour le monde is unquoted and written through both tiers. -/
theorem successful_fetch_normalizes_and_writes_through_witness :
    getCachedTranslation
        (fun _ _ => FetchOutcome.apiResponse 200 (some "\"Bonjour le monde\""))
        [] [] "Hello world" "fr"
      = ⟨"Bonjour le monde", [("Hello world_fr", "Bonjour le monde")],
          [("translation_Hello world_fr", "Bonjour le monde")], true⟩ := by
  have h := (successful_fetch_normalizes_and_writes_through
    (fun _ _ => FetchOutcome.apiResponse 200 (some "\"Bonjour le monde\""))
    [] [] "Hello world" "fr" "\"Bonjour le monde\"" rfl rfl rfl (by decide)).1
  exact h.trans (by decide)

/-- C5 counterexample: the cache key is the underscore concatenation of text
and language, so the distinct pairs (a_b, c) and (a, b_c) share the key
a_b_c: a successful write for the first pair satisfies a later lookup for
the second pair (it returns the value written for the first pair, with no
network call),
while the claim as stated says a write for one pair never satisfies a lookup
for another. -/
theorem cache_key_collision_cx :
    ((("a_b" : String), ("c" : String)) ≠ (("a" : String), ("b_c" : String))) ∧
    cacheKeyOf "a_b" "c" = cacheKeyOf "a" "b_c" ∧
    getCachedTranslation (fun _ _ => FetchOutcome.apiResponse 200 (some "X"))
        (getCachedTranslation (fun _ _ => FetchOutcome.apiResponse 200 (some "X"))
          [] [] "a_b" "c").cache
        (getCachedTranslation (fun _ _ => FetchOutcome.apiResponse 200 (some "X"))
          [] [] "a_b" "c").storage
        "a" "b_c"
      = ⟨"X",
          (getCachedTranslation (fun _ _ => FetchOutcome.apiResponse 200 (some "X"))
            [] [] "a_b" "c").cache,
          (getCachedTranslation (fun _ _ => FetchOutcome.apiResponse 200 (some "X"))
            [] [] "a_b" "c").storage, false⟩ := by
  decide

/-- C5 (amended): cache entries are keyed by the concatenated string
text_targetLang; for any two pairs whose concatenated keys differ, a call
for one pair never creates, overwrites or satisfies a lookup for the other
pair in either tier. -/
theorem distinct_cache_keys_no_interference (fetch : FetchFn)
    (cache storage : List (String × String)) (t1 l1 t2 l2 : String)
    (hk : cacheKeyOf t1 l1 ≠ cacheKeyOf t2 l2) :
    assocGet (getCachedTranslation fetch cache storage t1 l1).cache
        (cacheKeyOf t2 l2) = assocGet cache (cacheKeyOf t2 l2) ∧
    assocGet (getCachedTranslation fetch cache storage t1 l1).storage
        (storageKeyOf t2 l2) = assocGet storage (storageKeyOf t2 l2) := by
  have hk2 : cacheKeyOf t2 l2 ≠ cacheKeyOf t1 l1 := Ne.symm hk
  have hsk2 : storageKeyOf t2 l2 ≠ storageKeyOf t1 l1 :=
    Ne.symm (storageKey_ne t1 l1 t2 l2 hk)
  unfold getCachedTranslation
  cases h1 : assocGet cache (cacheKeyOf t1 l1) with
  | some v => simp [h1]
  | none =>
    simp only [h1]
    cases h2 : assocGet storage (storageKeyOf t1 l1) with
    | none =>
      simp only [h2]
      exact gctRemote_no_interference fetch cache storage t1 l1 _ _ hk2 hsk2
    | some v2 =>
      simp only [h2]
      by_cases hv : v2 ≠ ""
      · rw [if_pos hv]
        exact ⟨assocGet_assocSet_ne _ _ _ _ hk2, rfl⟩
      · rw [if_neg hv]
        exact gctRemote_no_interference fetch cache storage t1 l1 _ _ hk2 hsk2

/-- Witness for C5 at a concrete input: a successful call for (Hello, fr)
leaves both tiers empty at the keys of (World, fr). -/
theorem distinct_cache_keys_no_interference_witness :
    cacheKeyOf "Hello" "fr" ≠ cacheKeyOf "World" "fr" ∧
    assocGet (getCachedTranslation
        (fun _ _ => FetchOutcome.apiResponse 200 (some "Bonjour")) [] [] "Hello" "fr").cache
        (cacheKeyOf "World" "fr") = none ∧
    assocGet (getCachedTranslation
        (fun _ _ => FetchOutcome.apiResponse 200 (some "Bonjour")) [] [] "Hello" "fr").storage
        (storageKeyOf "World" "fr") = none := by
  have h := distinct_cache_keys_no_interference
    (fun _ _ => FetchOutcome.apiResponse 200 (some "Bonjour")) [] [] "Hello" "fr"
    "World" "fr" (by decide)
  exact ⟨by decide, h.1, h.2⟩

/-- C10: when the remote call succeeds but the normalized result equals the
recorded original text, the value is still written through both tiers while
the text of the requesting node - the whole DOM - is left unchanged. -/
theorem cache_write_without_dom_mutation (fetch : FetchFn) (w : World)
    (i : Nat) (rec : TextRecord) (lang s : String)
    (hmem : assocGet w.cache (cacheKeyOf rec.original lang) = none)
    (hst : assocGet w.storage (storageKeyOf rec.original lang) = none)
    (hf : fetch rec.original lang = FetchOutcome.apiResponse 200 (some s))
    (hs : s ≠ "")
    (heq : jsTrim (stripQuotes s) = rec.original) :
    (processNode fetch lang w (i, rec)).dom = w.dom ∧
    assocGet (processNode fetch lang w (i, rec)).cache
        (cacheKeyOf rec.original lang) = some rec.original ∧
    assocGet (processNode fetch lang w (i, rec)).storage
        (storageKeyOf rec.original lang) = some rec.original := by
  have h := gct_remote_success fetch w.cache w.storage rec.original lang s hmem hst hf hs
  unfold processNode
  rw [h]
  dsimp only
  rw [heq]
  rw [if_neg (fun hc => hc.2 rfl)]
  exact ⟨rfl, assocGet_assocSet_self _ _ _, assocGet_assocSet_self _ _ _⟩

/-- Witness for C10 at a concrete input: the endpoint echoes the original
text, the tiers are written, the DOM is untouched. -/
theorem cache_write_without_dom_mutation_witness :
    (processNode (fun _ _ => FetchOutcome.apiResponse 200 (some "Hello")) "fr"
        (extractedWorld [⟨some "P", false, "Hello"⟩])
        (0, ⟨"text_0", "Hello", "p"⟩)).dom
      = (extractedWorld [⟨some "P", false, "Hello"⟩]).dom ∧
    assocGet (processNode (fun _ _ => FetchOutcome.apiResponse 200 (some "Hello")) "fr"
        (extractedWorld [⟨some "P", false, "Hello"⟩])
        (0, ⟨"text_0", "Hello", "p"⟩)).cache
        (cacheKeyOf "Hello" "fr") = some "Hello" := by
  have h := cache_write_without_dom_mutation
    (fun _ _ => FetchOutcome.apiResponse 200 (some "Hello"))
    (extractedWorld [⟨some "P", false, "Hello"⟩]) 0 ⟨"text_0", "Hello", "p"⟩
    "fr" "Hello" rfl rfl rfl (by decide) (by decide)
  exact ⟨h.1, h.2.1⟩

/-- C6 (code evidence): the tree-walker filter of extractText never consults
skipSelectors, so a text node whose parent is a script element - a tag the
skipSelectors list itself names - passes every filter and is recorded. -/
theorem script_text_node_is_recorded :
    "script" ∈ skipSelectors ∧
    extractText [⟨some "SCRIPT", false, "var x = 1;"⟩] []
      = [(0, ⟨"text_0", "var x = 1;", "script"⟩)] := by
  decide

/-- C7: a run to a non-base language processes the recorded nodes in order
in fixed-size batches of eight, pausing 300 ms after each batch except the
last (the emitted trace equals the spec-side schedule), and the text of a
node is set to the resolved translation exactly when that result is nonempty and
differs from the recorded original. -/
theorem translate_batches_in_order_with_delays (fetch : FetchFn)
    (lang : String) (w : World) :
    (translateToLanguage fetch w lang).2
      = specBatchSchedule (w.originalTexts.map Prod.fst) ∧
    ∀ (v : World) (i : Nat) (rec : TextRecord), i < v.dom.length →
      domText (processNode fetch lang v (i, rec)).dom i =
        (if (getCachedTranslation fetch v.cache v.storage rec.original lang).result ≠ ""
            ∧ (getCachedTranslation fetch v.cache v.storage rec.original lang).result
              ≠ rec.original
         then some (getCachedTranslation fetch v.cache v.storage rec.original lang).result
         else domText v.dom i) := by
  constructor
  · unfold translateToLanguage specBatchSchedule
    rw [List.length_map]
    exact translateBatches_trace fetch lang w.originalTexts.length w.originalTexts w
      (le_refl _)
  · intro v i rec hi
    unfold processNode
    dsimp only
    by_cases hc : (getCachedTranslation fetch v.cache v.storage rec.original lang).result ≠ ""
        ∧ (getCachedTranslation fetch v.cache v.storage rec.original lang).result
          ≠ rec.original
    · rw [if_pos hc, if_pos hc]
      exact domText_domSetText_self _ _ _ hi
    · rw [if_neg hc, if_neg hc]

/-- Witness for C7 at a concrete input: one in-range node whose resolved
translation is nonempty and different gets that translation written. -/
theorem translate_batches_in_order_with_delays_witness :
    0 < (extractedWorld [⟨some "P", false, "Hello"⟩]).dom.length ∧
    domText (processNode (fun _ _ => FetchOutcome.apiResponse 200 (some "Bonjour")) "fr"
        (extractedWorld [⟨some "P", false, "Hello"⟩]) (0, ⟨"text_0", "Hello", "p"⟩)).dom 0
      = some "Bonjour" := by
  refine ⟨by decide, ?_⟩
  have h := (translate_batches_in_order_with_delays
    (fun _ _ => FetchOutcome.apiResponse 200 (some "Bonjour")) "fr"
    (extractedWorld [⟨some "P", false, "Hello"⟩])).2
    (extractedWorld [⟨some "P", false, "Hello"⟩]) 0 ⟨"text_0", "Hello", "p"⟩ (by decide)
  rw [h]
  decide

/-- C8: when a run is already in flight or the target equals the current
language, translatePage returns immediately with the whole state - the DOM,
both cache tiers, the current language, the persisted preference and the
busy flag - unchanged, and an empty trace. -/
theorem translatePage_noop_guard (fetch : FetchFn) (w : World) (lang : String)
    (h : w.isTranslating = true ∨ lang = w.currentLang) :
    translatePage fetch w lang = (w, []) := by
  unfold translatePage translatePageWith
  rw [if_pos h]

/-- Witness for C8 at a concrete input: the target equals the current
language of a freshly extracted page. -/
theorem translatePage_noop_guard_witness :
    ((extractedWorld []).isTranslating = true
      ∨ ("en" : String) = (extractedWorld []).currentLang) ∧
    translatePage (fun _ _ => FetchOutcome.networkError) (extractedWorld []) "en"
      = (extractedWorld [], []) := by
  refine ⟨Or.inr rfl, ?_⟩
  exact translatePage_noop_guard (fun _ _ => FetchOutcome.networkError)
    (extractedWorld []) "en" (Or.inr rfl)

/-- C9: every non-no-op run applies its try block to the state with the busy
flag and the loading indicator set (so both hold for the whole duration of
the body), clears both afterwards whatever the body did, and returns
normally with a result that does not depend on whether the body threw - the
catch arm only logs, so no failure reaches the caller. -/
theorem translatePage_busy_discipline (tb : TryBlock) (w : World) (lang : String)
    (h1 : w.isTranslating = false) (h2 : lang ≠ w.currentLang) :
    ({ w with isTranslating := true, loading := true }).isTranslating = true ∧
    ({ w with isTranslating := true, loading := true }).loading = true ∧
    translatePageWith tb w lang =
      ({ (tb { w with isTranslating := true, loading := true }).1 with
          isTranslating := false, loading := false },
        (tb { w with isTranslating := true, loading := true }).2.1) ∧
    (translatePageWith tb w lang).1.isTranslating = false ∧
    (translatePageWith tb w lang).1.loading = false ∧
    ∀ (w2 : World) (evs : List Event),
      translatePageWith (fun _ => (w2, evs, true)) w lang =
        translatePageWith (fun _ => (w2, evs, false)) w lang := by
  have hg : ¬(w.isTranslating = true ∨ lang = w.currentLang) := by
    rw [h1]
    simp [h2]
  refine ⟨rfl, rfl, ?_, ?_, ?_, ?_⟩
  · unfold translatePageWith
    rw [if_neg hg]
  · unfold translatePageWith
    rw [if_neg hg]
  · unfold translatePageWith
    rw [if_neg hg]
  · intro w2 evs
    unfold translatePageWith
    simp only [if_neg hg]

/-- Witness for C9 at a concrete input: an arbitrary throwing try block on a
fresh page, target different from the current language. -/
theorem translatePage_busy_discipline_witness :
    (extractedWorld []).isTranslating = false ∧ (("fr" : String) ≠ "en") ∧
    (translatePageWith (fun _ => (extractedWorld [], [], true))
        (extractedWorld []) "fr").1.isTranslating = false ∧
    (translatePageWith (fun _ => (extractedWorld [], [], true))
        (extractedWorld []) "fr").1.loading = false := by
  have h := translatePage_busy_discipline (fun _ => (extractedWorld [], [], true))
    (extractedWorld []) "fr" rfl (by decide)
  exact ⟨rfl, by decide, h.2.2.2.1, h.2.2.2.2.1⟩

/-- C1 counterexample: a node whose text carries surrounding whitespace is
recorded trimmed, so the restore run brings it back to the trimmed text, not
to the exact text it had at extraction, while the claim as stated promises
the exact original text. -/
theorem restore_trims_whitespace_cx :
    domText ((translatePage (fun _ _ => FetchOutcome.apiResponse 200 (some "Bonjour"))
        ((translatePage (fun _ _ => FetchOutcome.apiResponse 200 (some "Bonjour"))
          (extractedWorld [⟨some "P", false, " Hello "⟩]) "fr").1) "en").1).dom 0
      = some "Hello" ∧
    domText (extractedWorld [⟨some "P", false, " Hello "⟩]).dom 0 = some " Hello " ∧
    some ("Hello" : String) ≠ some (" Hello " : String) := by
  decide

/-- C1 (amended): after a run to any non-base language followed by a run
back to the base language, every recorded node carries its recorded original
text - the trimmed text content it had at extraction, equal to the exact
text whenever that text had no surrounding whitespace. -/
theorem restore_returns_recorded_original (fetch : FetchFn) (dom0 : List TNode)
    (lang : String) (i : Nat) (rec : TextRecord)
    (hlang : lang ≠ "en")
    (hmem : (i, rec) ∈ (extractedWorld dom0).originalTexts) :
    domText ((translatePage fetch
        ((translatePage fetch (extractedWorld dom0) lang).1) "en").1).dom i
      = some rec.original := by
  have hkeys := extractText_keysOK dom0
  have hmem' : (i, rec) ∈ extractText dom0 [] := hmem
  have hi : i < dom0.length := hkeys.2 (i, rec) hmem'
  have h1 := translatePage_not_base fetch (extractedWorld dom0) lang rfl hlang hlang
  have hOT : ((translatePage fetch (extractedWorld dom0) lang).1).originalTexts
      = extractText dom0 [] := by
    rw [h1]
    exact (sameShape_translateBatches fetch lang _ _ _).1
  have hLen : ((translatePage fetch (extractedWorld dom0) lang).1).dom.length
      = dom0.length := by
    rw [h1]
    exact (sameShape_translateBatches fetch lang _ _ _).2.2.2.2.2
  have hIsT : ((translatePage fetch (extractedWorld dom0) lang).1).isTranslating
      = false := by
    rw [h1]
  have hCur : ((translatePage fetch (extractedWorld dom0) lang).1).currentLang
      = lang := by
    rw [h1]
  have h2 := translatePage_base fetch ((translatePage fetch (extractedWorld dom0) lang).1)
    hIsT (by rw [hCur]; exact hlang)
  rw [h2]
  show domText ((((translatePage fetch (extractedWorld dom0) lang).1).originalTexts).foldl
      (fun dd e => domSetText dd e.1 e.2.original)
      (((translatePage fetch (extractedWorld dom0) lang).1).dom)) i = some rec.original
  rw [hOT]
  exact restoreFold_mem _ _ _ _ hkeys.1 hmem' (by rw [hLen]; exact hi)

/-- Witness for C1 at a concrete input: the spec scenario, a paragraph
reading Hello world translated to French and restored. -/
theorem restore_returns_recorded_original_witness :
    (("fr" : String) ≠ "en") ∧
    ((0, (⟨"text_0", "Hello world", "p"⟩ : TextRecord)) ∈
      (extractedWorld [⟨some "P", false, "Hello world"⟩]).originalTexts) ∧
    domText ((translatePage
        (fun _ _ => FetchOutcome.apiResponse 200 (some "Bonjour le monde"))
        ((translatePage (fun _ _ => FetchOutcome.apiResponse 200 (some "Bonjour le monde"))
          (extractedWorld [⟨some "P", false, "Hello world"⟩]) "fr").1) "en").1).dom 0
      = some "Hello world" := by
  refine ⟨by decide, by decide, ?_⟩
  exact restore_returns_recorded_original
    (fun _ _ => FetchOutcome.apiResponse 200 (some "Bonjour le monde"))
    [⟨some "P", false, "Hello world"⟩] "fr" 0 ⟨"text_0", "Hello world", "p"⟩
    (by decide) (by decide)

end Liq
